import Mathlib

/-!
Verification of the html5ever FFI adapter layer (lightpanda-io/browser,
`src/html5ever/{lib.rs, sink.rs, types.rs}`).

The development shallowly embeds the adapter's data model and operations:

* values crossing the C boundary (`QualName`, `CQualName`, `CAttribute`,
  `CNullable`, `CNodeOrText`) become plain Lean structures holding the viewed
  data (a Rust byte-slice view is modelled by the string it views);
* raw pointers that may be null (`*mut c_void` handles to sessions, input
  buffers) become `Option`; a node handle (`Ref`, compared by `ptr::eq`)
  becomes a `Nat` address compared by equality;
* the metadata arena becomes an append-only list whose indices play the role
  of the stable addresses handed out by `typed_arena::Arena`;
* the html5ever engine itself (tokenizer and tree builder) is out of scope
  and appears only as abstract functions passed to the entry points: what the
  entry points do with those functions is exactly what `lib.rs` does with the
  `Parser` value;
* host callbacks invoked by the sink are recorded as events / abstract
  functions, and `panic!` paths are made explicit with a `SinkOutcome.fatal`
  constructor.
-/

/-! ## Value types crossing the boundary (`types.rs`) -/

/-- Mirrors html5ever `QualName`: optional prefix, namespace and local name.
The Rust side holds interned atoms; we keep the string contents. -/
structure QualName where
  pfx : Option String
  ns : String
  localName : String
deriving Repr, DecidableEq

/-- Mirrors html5ever `Attribute`: a qualified name and a value. -/
structure Attribute where
  name : QualName
  value : String
deriving Repr, DecidableEq

/-- Mirrors `CQualName` of `types.rs`: the borrowed-view version of a
qualified name handed across the boundary.  A `StringSlice` view is modelled
by the string it views, so the structure carries the same data as
`QualName`. -/
structure CQualName where
  pfx : Option String
  ns : String
  localName : String
deriving Repr, DecidableEq

instance : Inhabited CQualName := ⟨⟨none, "", ""⟩⟩

/-- Mirrors `CQualName::create` of `types.rs`: build the boundary view of a
qualified name (prefix view when present, namespace view, local view). -/
def CQualName.create (q : QualName) : CQualName :=
  { pfx := q.pfx, ns := q.ns, localName := q.localName }

/-- Mirrors `CNullable<T>` of `types.rs`: a C-layout option with
`tag = 0` for "none" and `tag = 1` for "some". -/
structure CNullable (α : Type) where
  tag : Nat
  value : α
deriving Repr, DecidableEq

/-- Mirrors `CNullable::none()`: tag 0 with a default value. -/
def CNullable.none {α : Type} [Inhabited α] : CNullable α :=
  { tag := 0, value := default }

/-- Mirrors `CNullable::some(v)`: tag 1 with the value. -/
def CNullable.some {α : Type} (v : α) : CNullable α :=
  { tag := 1, value := v }

/-- Mirrors `CAttribute` of `types.rs`: boundary view of one attribute. -/
structure CAttribute where
  name : CQualName
  value : String
deriving Repr, DecidableEq

instance : Inhabited CAttribute := ⟨⟨default, ""⟩⟩

/-- Mirrors `CAttribute` construction in `html5ever_attribute_iterator_next`:
the name is `CQualName::create(&attr.name)` and the value the viewed bytes. -/
def CAttribute.create (a : Attribute) : CAttribute :=
  { name := CQualName.create a.name, value := a.value }

/-- Mirrors `CAttributeIterator` of `types.rs`: the owned attribute vector
and the current position. -/
structure CAttributeIterator where
  vec : List Attribute
  pos : Nat
deriving Repr, DecidableEq

instance : Inhabited Attribute := ⟨⟨⟨none, "", ""⟩, ""⟩⟩

/-! ## Attribute iterator operations (`lib.rs`) -/

/-- Mirrors `html5ever_attribute_iterator_next` of `lib.rs`: if `pos` equals
the vector length, return the none-tagged `CNullable` and leave the iterator
untouched; otherwise return the attribute view at `pos` and advance `pos` by
one.  The Rust function mutates the iterator behind a pointer; here it
returns the updated iterator alongside the result. -/
def html5ever_attribute_iterator_next (it : CAttributeIterator) :
    CNullable CAttribute × CAttributeIterator :=
  if it.pos = it.vec.length then
    (CNullable.none, it)
  else
    (CNullable.some (CAttribute.create (it.vec.getD it.pos default)),
      { it with pos := it.pos + 1 })

/-- Mirrors `html5ever_attribute_iterator_count` of `lib.rs`: returns the
total length of the attribute vector and does not modify the iterator. -/
def html5ever_attribute_iterator_count (it : CAttributeIterator) :
    Nat × CAttributeIterator :=
  (it.vec.length, it)

/-- State of the iterator after `n` calls to
`html5ever_attribute_iterator_next`. -/
def iterAfter (it : CAttributeIterator) : Nat → CAttributeIterator
  | 0 => it
  | n + 1 => (html5ever_attribute_iterator_next (iterAfter it n)).2

/-- After `n` next-calls on a fresh iterator over `attrs`, the vector is
unchanged and the position is `min n attrs.length`. -/
theorem iterAfter_fresh (attrs : List Attribute) (n : Nat) :
    iterAfter ⟨attrs, 0⟩ n = ⟨attrs, min n attrs.length⟩ := by
  induction n with
  | zero => simp [iterAfter]
  | succ n ih =>
    simp only [iterAfter, ih, html5ever_attribute_iterator_next]
    by_cases h : min n attrs.length = attrs.length
    · simp [h, Nat.min_eq_right, Nat.le_succ_of_le, Nat.min_le_right]
      omega
    · have hn : n < attrs.length := by
        rcases Nat.lt_or_ge n attrs.length with h' | h'
        · exact h'
        · exact absurd (Nat.min_eq_right h') h
      simp [h]
      omega

/-- C2: an attribute iterator over `k` attributes answers `count() = k`
without advancing the position, its first `k` `next()` calls each succeed
(returning the attribute view at the current position and advancing by one),
and every `next()` call at or past position `k` signals exhaustion and
leaves the iterator unchanged, so all subsequent calls keep signalling
exhaustion. -/
theorem attribute_iterator_exhaustion (attrs : List Attribute) :
    (∀ n : Nat, html5ever_attribute_iterator_count (iterAfter ⟨attrs, 0⟩ n) =
        (attrs.length, iterAfter ⟨attrs, 0⟩ n)) ∧
    (∀ j : Nat, j < attrs.length →
      (html5ever_attribute_iterator_next (iterAfter ⟨attrs, 0⟩ j)).1 =
        CNullable.some (CAttribute.create (attrs.getD j default)) ∧
      (iterAfter ⟨attrs, 0⟩ (j + 1)).pos = j + 1) ∧
    (∀ j : Nat, attrs.length ≤ j →
      html5ever_attribute_iterator_next (iterAfter ⟨attrs, 0⟩ j) =
        (CNullable.none, iterAfter ⟨attrs, 0⟩ j)) := by
  refine ⟨?_, ?_, ?_⟩
  · intro n
    rw [iterAfter_fresh]
    simp [html5ever_attribute_iterator_count]
  · intro j hj
    have hmin : min j attrs.length = j := Nat.min_eq_left (Nat.le_of_lt hj)
    have hmin' : min (j + 1) attrs.length = j + 1 := Nat.min_eq_left hj
    constructor
    · rw [iterAfter_fresh]
      simp [html5ever_attribute_iterator_next, hmin, Nat.ne_of_lt hj]
    · rw [iterAfter_fresh]
      simp [hmin']
  · intro j hj
    have hmin : min j attrs.length = attrs.length := Nat.min_eq_right hj
    rw [iterAfter_fresh]
    simp [html5ever_attribute_iterator_next, hmin]

/-- Concrete run of `attribute_iterator_exhaustion` on a one-attribute list:
the first `next()` succeeds and the second signals exhaustion. -/
theorem attribute_iterator_exhaustion_witness :
    (html5ever_attribute_iterator_next
        (iterAfter ⟨[⟨⟨none, "", "id"⟩, "v"⟩], 0⟩ 0)).1 =
      CNullable.some (CAttribute.create
        ([⟨⟨none, "", "id"⟩, "v"⟩].getD 0 default)) ∧
    html5ever_attribute_iterator_next
        (iterAfter ⟨[⟨⟨none, "", "id"⟩, "v"⟩], 0⟩ 1) =
      (CNullable.none, iterAfter ⟨[⟨⟨none, "", "id"⟩, "v"⟩], 0⟩ 1) :=
  ⟨((attribute_iterator_exhaustion [⟨⟨none, "", "id"⟩, "v"⟩]).2.1 0
      (by decide)).1,
    (attribute_iterator_exhaustion [⟨⟨none, "", "id"⟩, "v"⟩]).2.2 1
      (by decide)⟩

/-! ## Node handles and `same_node` (`sink.rs`) -/

/-- Mirrors `Ref = *const c_void` of `types.rs`: an opaque host-owned node
handle, compared only by address (`ptr::eq`).  The address is a `Nat`. -/
abbrev Ref := Nat

/-- Mirrors `Sink::same_node` of `sink.rs`: `ptr::eq::<c_void>(*x, *y)`,
i.e. address equality of the two handles.  It reads no other state. -/
def Sink.same_node (x y : Ref) : Bool :=
  x == y

/-- C8: `same_node` is host address identity and an equivalence relation on
handles: reflexive, symmetric and transitive.  As a pure function of its two
arguments it has no side effect on any state. -/
theorem same_node_equivalence :
    (∀ h : Ref, Sink.same_node h h = true) ∧
    (∀ a b : Ref, Sink.same_node a b = Sink.same_node b a) ∧
    (∀ a b c : Ref, Sink.same_node a b = true → Sink.same_node b c = true →
      Sink.same_node a c = true) := by
  refine ⟨?_, ?_, ?_⟩
  · intro h
    simp [Sink.same_node]
  · intro a b
    by_cases hab : a = b
    · subst hab; rfl
    · have hba : ¬ b = a := fun hh => hab hh.symm
      simp [Sink.same_node, hab, hba]
  · intro a b c hab hbc
    simp only [Sink.same_node, beq_iff_eq] at *
    exact hab.trans hbc

/-- Concrete run of `same_node_equivalence`: transitivity applied at the
handles 7, 7, 7, with both hypotheses discharged by evaluation. -/
theorem same_node_equivalence_witness :
    Sink.same_node 7 7 = true :=
  same_node_equivalence.2.2 7 7 7 (by decide) (by decide)

/-! ## Fatal (unsupported) sink operations (`sink.rs` and the
fragment-only adapter variant) -/

/-- Mirrors `NodeOrText<Handle>` of html5ever: a child is either an existing
node handle or a text view. -/
inductive NodeOrText where
  | node : Ref → NodeOrText
  | text : String → NodeOrText
deriving Repr, DecidableEq

/-- Result of a sink operation: either a normal result or process
termination (`panic!` aborts across the `extern "C"` boundary). -/
inductive SinkOutcome (α : Type) where
  | ok : α → SinkOutcome α
  | fatal : String → SinkOutcome α
deriving Repr, DecidableEq

/-- True exactly on the process-terminating outcome. -/
def SinkOutcome.isFatal {α : Type} : SinkOutcome α → Bool
  | .ok _ => false
  | .fatal _ => true

/-- Mirrors `Sink::append_before_sibling` of `sink.rs`: ignores both
arguments and executes `panic!("append_before_sibling")`. -/
def Sink.append_before_sibling (_sibling : Ref) (_child : NodeOrText) :
    SinkOutcome Unit :=
  SinkOutcome.fatal "append_before_sibling"

/-- Mirrors `Sink::append_based_on_parent_node` of `sink.rs`: ignores all
three arguments and executes `panic!("append_based_on_parent_node")`. -/
def Sink.append_based_on_parent_node (_element _prev_element : Ref)
    (_child : NodeOrText) : SinkOutcome Unit :=
  SinkOutcome.fatal "append_based_on_parent_node"

/-- Modelled from the spec: the fragment-only adapter variant (a second sink
implementation referred to by the spec, not present under `src/`) declares
`create_pi` unsupported; invoking it is process-terminating. -/
def FragmentSink.create_pi (_target _data : String) : SinkOutcome Ref :=
  SinkOutcome.fatal "create_pi"

/-- Modelled from the spec: `get_template_contents` in the fragment-only
adapter variant is unsupported and process-terminating. -/
def FragmentSink.get_template_contents (_target : Ref) : SinkOutcome Ref :=
  SinkOutcome.fatal "get_template_contents"

/-- Modelled from the spec: `add_attrs_if_missing` in the fragment-only
adapter variant is unsupported and process-terminating. -/
def FragmentSink.add_attrs_if_missing (_target : Ref)
    (_attrs : List Attribute) : SinkOutcome Unit :=
  SinkOutcome.fatal "add_attrs_if_missing"

/-- Modelled from the spec: `remove_from_parent` in the fragment-only
adapter variant is unsupported and process-terminating. -/
def FragmentSink.remove_from_parent (_target : Ref) : SinkOutcome Unit :=
  SinkOutcome.fatal "remove_from_parent"

/-- Modelled from the spec: `reparent_children` in the fragment-only adapter
variant is unsupported and process-terminating. -/
def FragmentSink.reparent_children (_node _new_parent : Ref) :
    SinkOutcome Unit :=
  SinkOutcome.fatal "reparent_children"

/-- C4: every explicitly unsupported tree operation terminates the process
on any input: `append_before_sibling` and `append_based_on_parent_node` in
the minimal sink, and `create_pi`, `get_template_contents`,
`add_attrs_if_missing`, `remove_from_parent`, `reparent_children` in the
fragment-only adapter variant. -/
theorem unsupported_operations_fatal :
    (∀ (s : Ref) (c : NodeOrText),
      (Sink.append_before_sibling s c).isFatal = true) ∧
    (∀ (e p : Ref) (c : NodeOrText),
      (Sink.append_based_on_parent_node e p c).isFatal = true) ∧
    (∀ t d : String, (FragmentSink.create_pi t d).isFatal = true) ∧
    (∀ t : Ref, (FragmentSink.get_template_contents t).isFatal = true) ∧
    (∀ (t : Ref) (a : List Attribute),
      (FragmentSink.add_attrs_if_missing t a).isFatal = true) ∧
    (∀ t : Ref, (FragmentSink.remove_from_parent t).isFatal = true) ∧
    (∀ n p : Ref, (FragmentSink.reparent_children n p).isFatal = true) :=
  ⟨fun _ _ => rfl, fun _ _ _ => rfl, fun _ _ => rfl, fun _ => rfl,
    fun _ _ => rfl, fun _ => rfl, fun _ _ => rfl⟩

/-! ## Element metadata and the arena (`sink.rs`) -/

/-- Mirrors `ElementFlags` of html5ever: the flags passed to
`create_element`; the sink reads only the MathML integration-point flag. -/
structure ElementFlags where
  template : Bool
  mathml_annotation_xml_integration_point : Bool
deriving Repr, DecidableEq

/-- Mirrors `ElementData` of `sink.rs`: per-element metadata, an owned
qualified name and the MathML annotation-xml integration-point flag. -/
structure ElementData where
  qname : QualName
  mathml_annotation_xml_integration_point : Bool
deriving Repr, DecidableEq

/-- Mirrors `ElementData::new` of `sink.rs`. -/
def ElementData.new (qname : QualName) (flags : ElementFlags) : ElementData :=
  { qname := qname,
    mathml_annotation_xml_integration_point :=
      flags.mathml_annotation_xml_integration_point }

/-- Modelled from the spec: `typed_arena::Arena` is an external dependency
whose source is not part of this repository.  The spec describes the
metadata arena as an append-only allocator whose previously returned
addresses stay valid and unchanged for the arena's whole lifetime.  The
arena is modelled as the list of allocated entries in allocation order; an
address is the index of an entry in that order. -/
structure Arena where
  entries : List ElementData
deriving Repr, DecidableEq

/-- Allocate one entry: append it and hand out its index as its address. -/
def Arena.alloc (a : Arena) (d : ElementData) : Arena × Nat :=
  ({ entries := a.entries ++ [d] }, a.entries.length)

/-- Dereference an arena address. -/
def Arena.read (a : Arena) (addr : Nat) : Option ElementData :=
  a.entries[addr]?

/-- Mirrors `QuirksMode` of html5ever. -/
inductive QuirksMode where
  | quirks
  | limitedQuirks
  | noQuirks
deriving Repr, DecidableEq

/-- The sink state owned by a parse: the arena behind `Sink.arena` and the
`quirks_mode` cell.  The callback pointers and `ctx`/`document` are
modelled as parameters of the individual operations. -/
structure SinkState where
  arena : Arena
  quirks_mode : QuirksMode
deriving Repr, DecidableEq

/-- Mirrors `Sink::set_quirks_mode` of `sink.rs`: store the mode in the
cell. -/
def Sink.set_quirks_mode (s : SinkState) (mode : QuirksMode) : SinkState :=
  { s with quirks_mode := mode }

/-- Mirrors `Sink::create_element` of `sink.rs`: allocate an
`ElementData::new(name.clone(), flags)` entry in the arena, build a fresh
attribute iterator over `attrs` at position 0, and invoke the host's
create-element callback with the entry's address, the boundary view of the
name and the iterator; the host returns the node handle.  Returns the
updated state, the metadata address and the handle. -/
def Sink.create_element (hostCreate : Nat → CQualName → CAttributeIterator → Ref)
    (s : SinkState) (name : QualName) (attrs : List Attribute)
    (flags : ElementFlags) : SinkState × Nat × Ref :=
  let alloca := s.arena.alloc (ElementData.new name flags)
  let handle := hostCreate alloca.2 (CQualName.create name) ⟨attrs, 0⟩
  ({ s with arena := alloca.1 }, alloca.2, handle)

/-- Mirrors `Sink::elem_name` of `sink.rs`: ask the host's
`get_data_callback` for the metadata address associated with the node, then
read the qualified name stored there.  The Rust code dereferences the raw
pointer; the out-of-arena case (undefined behaviour there) is `none`. -/
def Sink.elem_name (getData : Ref → Nat) (s : SinkState) (target : Ref) :
    Option QualName :=
  (s.arena.read (getData target)).map ElementData.qname

/-- Mirrors `Sink::is_mathml_annotation_xml_integration_point` of
`sink.rs`: same resolution path as `elem_name`, reading the flag. -/
def Sink.is_mathml_annotation_xml_integration_point (getData : Ref → Nat)
    (s : SinkState) (target : Ref) : Option Bool :=
  (s.arena.read (getData target)).map
    ElementData.mathml_annotation_xml_integration_point

/-- One element-creation request: the arguments the engine passes to
`Sink::create_element`. -/
structure CreateReq where
  name : QualName
  attrs : List Attribute
  flags : ElementFlags
deriving Repr, DecidableEq

/-- Run a sequence of `create_element` calls, returning the final state and
the list of metadata addresses handed out, in order. -/
def runCreates (hostCreate : Nat → CQualName → CAttributeIterator → Ref) :
    SinkState → List CreateReq → SinkState × List Nat
  | s, [] => (s, [])
  | s, r :: rest =>
    let step := Sink.create_element hostCreate s r.name r.attrs r.flags
    let next := runCreates hostCreate step.1 rest
    (next.1, step.2.1 :: next.2)

/-- The arena after a run of creations is the initial entries followed by
one `ElementData.new` entry per request, in order. -/
theorem runCreates_arena (hostCreate : Nat → CQualName → CAttributeIterator → Ref)
    (s : SinkState) (reqs : List CreateReq) :
    (runCreates hostCreate s reqs).1.arena.entries =
      s.arena.entries ++ reqs.map (fun r => ElementData.new r.name r.flags) := by
  induction reqs generalizing s with
  | nil => simp [runCreates]
  | cons r rest ih =>
    simp [runCreates, Sink.create_element, Arena.alloc, ih]

/-- The address handed out for the `i`-th creation of a run is the number
of entries the arena held before the run, plus `i`. -/
theorem runCreates_addr (hostCreate : Nat → CQualName → CAttributeIterator → Ref)
    (s : SinkState) (reqs : List CreateReq) (i : Nat) (hi : i < reqs.length) :
    (runCreates hostCreate s reqs).2[i]? = some (s.arena.entries.length + i) := by
  induction reqs generalizing s i with
  | nil => simp at hi
  | cons r rest ih =>
    cases i with
    | zero => simp [runCreates, Sink.create_element, Arena.alloc]
    | succ i =>
      have hi' : i < rest.length := Nat.lt_of_succ_lt_succ hi
      have := ih (Sink.create_element hostCreate s r.name r.attrs r.flags).1 i hi'
      simp only [runCreates, List.getElem?_cons_succ]
      rw [this]
      simp only [Sink.create_element, Arena.alloc, List.length_append,
        List.length_singleton, Option.some.injEq]
      omega

/-- Reading the address of the `i`-th creation after the whole run yields
the entry allocated at creation `i`. -/
theorem runCreates_read (hostCreate : Nat → CQualName → CAttributeIterator → Ref)
    (s : SinkState) (reqs : List CreateReq) (i : Nat) (hi : i < reqs.length) :
    (runCreates hostCreate s reqs).1.arena.read (s.arena.entries.length + i) =
      some (ElementData.new (reqs.get ⟨i, hi⟩).name (reqs.get ⟨i, hi⟩).flags) := by
  unfold Arena.read
  rw [runCreates_arena]
  rw [List.getElem?_append_right (by omega)]
  have hidx : s.arena.entries.length + i - s.arena.entries.length = i := by omega
  rw [hidx]
  rw [List.getElem?_map]
  simp [List.getElem?_eq_getElem (by simpa using hi)]

/-- C1: metadata arena address stability: in any session state and for any
sequence of `create_element` calls, the address handed out for the `i`-th
creation is determined by `i` alone (the entry count before the run plus
`i`), and after the whole run — however many further creations followed —
that address still reads back exactly the entry allocated at creation `i`;
growth never relocates or rewrites existing entries. -/
theorem metadata_address_stability
    (hostCreate : Nat → CQualName → CAttributeIterator → Ref)
    (s : SinkState) (reqs : List CreateReq) (i : Nat) (hi : i < reqs.length) :
    (runCreates hostCreate s reqs).2[i]? = some (s.arena.entries.length + i) ∧
    (runCreates hostCreate s reqs).1.arena.read (s.arena.entries.length + i) =
      some (ElementData.new (reqs.get ⟨i, hi⟩).name (reqs.get ⟨i, hi⟩).flags) :=
  ⟨runCreates_addr hostCreate s reqs i hi, runCreates_read hostCreate s reqs i hi⟩

/-- Two concrete element-creation requests (an HTML `p` and a MathML-flagged
element) used to instantiate the arena theorems. -/
def demoReqs : List CreateReq :=
  [⟨⟨none, "http://www.w3.org/1999/xhtml", "p"⟩, [], ⟨false, false⟩⟩,
    ⟨⟨none, "http://www.w3.org/1998/Math/MathML", "annotation-xml"⟩, [],
      ⟨false, true⟩⟩]

/-- A fresh session state with an empty arena. -/
def demoState : SinkState :=
  ⟨⟨[]⟩, QuirksMode.noQuirks⟩

/-- Concrete run of `metadata_address_stability`: after both demo creations,
creation 0's address is the base index and reads back the first entry. -/
theorem metadata_address_stability_witness :
    (runCreates (fun a _ _ => a) demoState demoReqs).2[0]? =
      some (demoState.arena.entries.length + 0) ∧
    (runCreates (fun a _ _ => a) demoState demoReqs).1.arena.read
        (demoState.arena.entries.length + 0) =
      some (ElementData.new (demoReqs.get ⟨0, by decide⟩).name
        (demoReqs.get ⟨0, by decide⟩).flags) :=
  metadata_address_stability (fun a _ _ => a) demoState demoReqs 0 (by decide)

/-- C3: metadata round trip: if element `i` of a creation run was created
with name `n` and flags `f`, then for any handle the host's node-to-metadata
lookup maps to the address allocated at creation `i`, resolving `elem_name`
through that metadata in the final session state returns `n`, and resolving
`is_mathml_annotation_xml_integration_point` returns `f`'s MathML
integration-point flag — no later creation mutates the stored entry. -/
theorem metadata_round_trip
    (hostCreate : Nat → CQualName → CAttributeIterator → Ref)
    (getData : Ref → Nat) (s : SinkState) (reqs : List CreateReq)
    (i : Nat) (hi : i < reqs.length) (t : Ref)
    (ht : getData t = s.arena.entries.length + i) :
    Sink.elem_name getData (runCreates hostCreate s reqs).1 t =
      some (reqs.get ⟨i, hi⟩).name ∧
    Sink.is_mathml_annotation_xml_integration_point getData
        (runCreates hostCreate s reqs).1 t =
      some (reqs.get ⟨i, hi⟩).flags.mathml_annotation_xml_integration_point := by
  have hread := runCreates_read hostCreate s reqs i hi
  constructor
  · rw [Sink.elem_name, ht, hread]
    simp [ElementData.new]
  · rw [Sink.is_mathml_annotation_xml_integration_point, ht, hread]
    simp [ElementData.new]

/-- Concrete run of `metadata_round_trip`: with the identity
node-to-metadata lookup and handle 0 for creation 0, `elem_name` returns
the HTML `p` name and the MathML flag reads back `false`. -/
theorem metadata_round_trip_witness :
    Sink.elem_name id (runCreates (fun a _ _ => a) demoState demoReqs).1 0 =
      some (demoReqs.get ⟨0, by decide⟩).name ∧
    Sink.is_mathml_annotation_xml_integration_point id
        (runCreates (fun a _ _ => a) demoState demoReqs).1 0 =
      some (demoReqs.get
        ⟨0, by decide⟩).flags.mathml_annotation_xml_integration_point :=
  metadata_round_trip (fun a _ _ => a) id demoState demoReqs 0 (by decide) 0
    (by decide)

/-! ## UTF-8 validation (`std::str::from_utf8` in
`html5ever_streaming_parser_feed`) -/

/-- A UTF-8 continuation byte: `0x80..=0xBF`. -/
def utf8Cont (b : Nat) : Bool :=
  0x80 ≤ b && b ≤ 0xBF

/-- Validity of a byte sequence as UTF-8, mirroring the checks performed by
Rust's `std::str::from_utf8`: ASCII passes, `0x80..=0xC1` lead bytes are
rejected (continuations out of place and overlong two-byte forms), `0xE0`,
`0xED`, `0xF0` and `0xF4` restrict their second byte (overlong three- and
four-byte forms, surrogates, and code points above `U+10FFFF`), and every
trailing byte must be a continuation byte. -/
def utf8Valid : List Nat → Bool
  | [] => true
  | b :: rest =>
    if b ≤ 0x7F then utf8Valid rest
    else if b < 0xC2 then false
    else if b ≤ 0xDF then
      match rest with
      | [] => false
      | b1 :: r => utf8Cont b1 && utf8Valid r
    else if b ≤ 0xEF then
      match rest with
      | b1 :: b2 :: r =>
        (if b = 0xE0 then 0xA0 ≤ b1 && b1 ≤ 0xBF
          else if b = 0xED then 0x80 ≤ b1 && b1 ≤ 0x9F
          else utf8Cont b1) && utf8Cont b2 && utf8Valid r
      | _ => false
    else if b ≤ 0xF4 then
      match rest with
      | b1 :: b2 :: b3 :: r =>
        (if b = 0xF0 then 0x90 ≤ b1 && b1 ≤ 0xBF
          else if b = 0xF4 then 0x80 ≤ b1 && b1 ≤ 0x8F
          else utf8Cont b1) && utf8Cont b2 && utf8Cont b3 && utf8Valid r
      | _ => false
    else false

/-! ## Streaming session and one-shot entry points (`lib.rs`) -/

/-- An observable effect of a parse: a host callback invocation, or the
invocation of the sink's own `finish` hook. -/
inductive Event where
  | host : String → Event
  | adapterFinish : Event
deriving Repr, DecidableEq

/-- Mirrors `StreamingParser` of `lib.rs`: the session owns the metadata
arena and the engine's parser state.  The engine (html5ever's `Parser`) is
out of scope, so its state is an arbitrary type `E`; what the entry points
do with it is modelled by the `process`/`drain` functions they receive. -/
structure StreamingParser (E : Type) where
  arena : Arena
  engine : E

/-- Mirrors `html5ever_streaming_parser_feed` of `lib.rs`.  A null session
pointer, a null chunk pointer or a zero-length chunk returns immediately;
otherwise the bytes are UTF-8-validated (`std::str::from_utf8` is a
zero-copy check, so the validated chunk is the same byte sequence) and, on
success, handed to the engine's `process`, which consumes the whole chunk
synchronously and may update the session and emit host callbacks.  On
validation failure the chunk is silently dropped. -/
def html5ever_streaming_parser_feed {E : Type}
    (process : StreamingParser E → List Nat → StreamingParser E × List Event)
    (p : Option (StreamingParser E)) (html : Option (List Nat)) :
    Option (StreamingParser E) × List Event :=
  match p, html with
  | Option.none, _ => (Option.none, [])
  | Option.some sp, Option.none => (Option.some sp, [])
  | Option.some sp, Option.some bytes =>
    if bytes.length = 0 then (Option.some sp, [])
    else if utf8Valid bytes then
      let step := process sp bytes
      (Option.some step.1, step.2)
    else (Option.some sp, [])

/-- Mirrors html5ever's `Parser::finish` as invoked by
`html5ever_streaming_parser_finish`: drain the buffered engine state
(emitting any resulting host callbacks, abstracted as `drain`), then invoke
the sink's `finish` hook. -/
def parserFinish {E : Type} (drain : StreamingParser E → List Event)
    (sp : StreamingParser E) : List Event :=
  drain sp ++ [Event.adapterFinish]

/-- Mirrors `html5ever_streaming_parser_finish` of `lib.rs`: a null session
pointer returns immediately; otherwise the session box is taken back,
`Parser::finish` runs, and the arena and parser are dropped — the handle is
consumed (`Option.none`). -/
def html5ever_streaming_parser_finish {E : Type}
    (drain : StreamingParser E → List Event)
    (p : Option (StreamingParser E)) :
    Option (StreamingParser E) × List Event :=
  match p with
  | Option.none => (Option.none, [])
  | Option.some sp => (Option.none, parserFinish drain sp)

/-- Mirrors `html5ever_streaming_parser_destroy` of `lib.rs`: a null session
pointer returns immediately; otherwise the session box is dropped without
finishing — no callback of any kind runs, and the handle is consumed. -/
def html5ever_streaming_parser_destroy {E : Type}
    (p : Option (StreamingParser E)) :
    Option (StreamingParser E) × List Event :=
  match p with
  | Option.none => (Option.none, [])
  | Option.some _ => (Option.none, [])

/-- Mirrors `html5ever_parse_document` of `lib.rs`: a null or zero-length
input buffer returns immediately, before the arena, the sink or the engine
are even constructed; otherwise the engine runs to completion over the whole
buffer (abstracted as `run`, covering
`parse_document(sink, ..).from_utf8().one(bytes)`). -/
def html5ever_parse_document (run : List Nat → List Event)
    (html : Option (List Nat)) : List Event :=
  match html with
  | Option.none => []
  | Option.some bytes => if bytes.length = 0 then [] else run bytes

/-- The HTML namespace URL, the expansion of `ns!(html)`. -/
def htmlNamespace : String :=
  "http://www.w3.org/1999/xhtml"

/-- The fragment-mode context handed to html5ever's `parse_fragment`: the
context element's qualified name, its attribute list, and whether the
context element allows scripting. -/
structure FragmentContext where
  contextName : QualName
  contextAttrs : List Attribute
  scriptingEnabled : Bool
deriving Repr, DecidableEq

/-- Mirrors `html5ever_parse_fragment` of `lib.rs`: a null or zero-length
input buffer returns immediately; otherwise the engine runs in fragment
mode (abstracted as `run`) with the context
`QualName::new(None, ns!(html), "body")`, an empty attribute vector and
`context_element_allows_scripting = false`. -/
def html5ever_parse_fragment (run : FragmentContext → List Nat → List Event)
    (html : Option (List Nat)) : List Event :=
  match html with
  | Option.none => []
  | Option.some bytes =>
    if bytes.length = 0 then []
    else run ⟨⟨Option.none, htmlNamespace, "body"⟩, [], false⟩ bytes

/-- C5: silent drop of undecodable streaming chunks: feeding a live session
a non-empty chunk that is not valid UTF-8 returns normally with the session
(arena and parser) unchanged and no adapter callback or error issued, while
a valid-UTF-8 chunk is handed whole to the engine's synchronous `process`
before the call returns. -/
theorem feed_utf8_policy {E : Type}
    (process : StreamingParser E → List Nat → StreamingParser E × List Event)
    (sp : StreamingParser E) (bytes : List Nat) (hne : bytes ≠ []) :
    (utf8Valid bytes = false →
      html5ever_streaming_parser_feed process (Option.some sp)
        (Option.some bytes) = (Option.some sp, [])) ∧
    (utf8Valid bytes = true →
      html5ever_streaming_parser_feed process (Option.some sp)
        (Option.some bytes) =
        (Option.some (process sp bytes).1, (process sp bytes).2)) := by
  have h0 : ¬ bytes.length = 0 := by simpa using hne
  constructor
  · intro hv
    simp [html5ever_streaming_parser_feed, h0, hv]
  · intro hv
    simp [html5ever_streaming_parser_feed, h0, hv]

/-- Concrete run of `feed_utf8_policy`: the lone byte `0xFF` is dropped
silently, while the ASCII byte `h` reaches the engine. -/
theorem feed_utf8_policy_witness :
    @html5ever_streaming_parser_feed Unit (fun sp _ => (sp, []))
        (Option.some ⟨⟨[]⟩, ()⟩) (Option.some [255]) =
      (Option.some ⟨⟨[]⟩, ()⟩, []) ∧
    @html5ever_streaming_parser_feed Unit
        (fun sp _ => (sp, [Event.host "append"]))
        (Option.some ⟨⟨[]⟩, ()⟩) (Option.some [104]) =
      (Option.some ⟨⟨[]⟩, ()⟩, [Event.host "append"]) :=
  ⟨(feed_utf8_policy (fun sp _ => (sp, [])) ⟨⟨[]⟩, ()⟩ [255]
      (by decide)).1 (by decide),
    (feed_utf8_policy (fun sp _ => (sp, [Event.host "append"])) ⟨⟨[]⟩, ()⟩
      [104] (by decide)).2 (by decide)⟩

/-- C6: a null input pointer or a zero-length buffer given to either
one-shot entry point returns normally, without running the engine: zero
adapter calls and no error. -/
theorem one_shot_empty_null_noop (runDoc : List Nat → List Event)
    (runFrag : FragmentContext → List Nat → List Event) :
    html5ever_parse_document runDoc Option.none = [] ∧
    html5ever_parse_document runDoc (Option.some []) = [] ∧
    html5ever_parse_fragment runFrag Option.none = [] ∧
    html5ever_parse_fragment runFrag (Option.some []) = [] :=
  ⟨rfl, rfl, rfl, rfl⟩

/-- C7: cancellation safety: `destroy` on a live session consumes the
handle, emits no event at all — in particular it never invokes the sink's
`finish` hook or any callback the engine's finish would trigger — while
`finish` on a live session consumes the handle and runs the drained engine
events followed by the sink's `finish` hook before the session is
released. -/
theorem finish_destroy_lifecycle {E : Type}
    (drain : StreamingParser E → List Event) (sp : StreamingParser E) :
    html5ever_streaming_parser_destroy (Option.some sp) =
      (Option.none, ([] : List Event)) ∧
    Event.adapterFinish ∉ (html5ever_streaming_parser_destroy
      (Option.some sp)).2 ∧
    html5ever_streaming_parser_finish drain (Option.some sp) =
      (Option.none, drain sp ++ [Event.adapterFinish]) ∧
    Event.adapterFinish ∈ (html5ever_streaming_parser_finish drain
      (Option.some sp)).2 := by
  refine ⟨rfl, ?_, rfl, ?_⟩
  · simp [html5ever_streaming_parser_destroy]
  · simp [html5ever_streaming_parser_finish, parserFinish]

/-- C9: a non-empty one-shot fragment parse runs the engine in fragment
mode with the implicit context element `body` in the HTML namespace, no
prefix, an empty attribute list, and scripting disabled. -/
theorem fragment_parse_context (run : FragmentContext → List Nat → List Event)
    (bytes : List Nat) (hne : bytes ≠ []) :
    html5ever_parse_fragment run (Option.some bytes) =
      run ⟨⟨Option.none, htmlNamespace, "body"⟩, [], false⟩ bytes := by
  have h0 : ¬ bytes.length = 0 := by simpa using hne
  simp [html5ever_parse_fragment, h0]

/-- Concrete run of `fragment_parse_context` on the one-byte input `<`,
with an engine that reports its context element's local name. -/
theorem fragment_parse_context_witness :
    html5ever_parse_fragment
        (fun c _ => [Event.host c.contextName.localName])
        (Option.some [60]) = [Event.host "body"] :=
  fragment_parse_context (fun c _ => [Event.host c.contextName.localName])
    [60] (by decide)

/-- C10: a null session pointer given to streaming `feed`, `finish` or
`destroy` returns normally, invokes no callback and touches no session
state. -/
theorem null_session_noop {E : Type}
    (process : StreamingParser E → List Nat → StreamingParser E × List Event)
    (drain : StreamingParser E → List Event) (html : Option (List Nat)) :
    html5ever_streaming_parser_feed process Option.none html =
      (Option.none, []) ∧
    html5ever_streaming_parser_finish drain
      (Option.none : Option (StreamingParser E)) = (Option.none, []) ∧
    html5ever_streaming_parser_destroy
      (Option.none : Option (StreamingParser E)) = (Option.none, []) :=
  ⟨rfl, rfl, rfl⟩
